import Mathlib

/-!
Shallow embedding of the goose configuration/secrets resolver
(`crates/goose/src/config/base.rs`) and the tool-permission store
(`crates/goose/src/permission/permission_store.rs`), together with proofs
about the embedded operations.

Modelling conventions:
* `serde_json::Value` is embedded as the inductive `Json` below.
* External library functions (serde serialization to strings, blake3
  hashing, `ToolRequest::to_readable_string`) are abstracted as explicit
  function parameters, so every theorem quantifies over them.
* The YAML/JSON byte-level encoding of config and secrets files is
  abstracted: a file on disk is modelled by the `Json` value it decodes
  to (this is the form `load_values`/`load_secrets` immediately normalize
  file content into).  The keyring entry is kept as an undecoded string,
  with its JSON decoding a parameter, mirroring `entry.get_password()`.
* `Utc::now().timestamp()` is a parameter `now : Int` (i64 epoch seconds).
* Rust `HashMap`s are embedded as association lists with first-match
  lookup; the store code never creates duplicate keys.
* A Rust panic (`unwrap` on an `Err`) is modelled by returning `none`
  from an `Option`-valued embedding.
-/

namespace Goose

/-- Embedding of `serde_json::Value`: null, bool, integer number, string,
array, object (object fields as an ordered association list). -/
inductive Json where
  | null : Json
  | bool (b : Bool) : Json
  | num (n : Int) : Json
  | str (s : String) : Json
  | arr (elems : List Json) : Json
  | obj (fields : List (String × Json)) : Json

/-- A flat mapping from string keys to values, the in-memory form of a
config/secrets mapping (`HashMap<String, Value>` in the source). -/
abbrev ValueMap := List (String × Json)

/-- Embedding of `ConfigError` from `config/base.rs`. -/
inductive ConfigError where
  | notFound (key : String) : ConfigError
  | deserializeError (msg : String) : ConfigError
  | fileError (msg : String) : ConfigError
  | directoryError (msg : String) : ConfigError
  | keyringError (msg : String) : ConfigError

/-- Embedding of `ConfigStorage` from `config/base.rs`: file-backed with a
path, or in-memory. -/
inductive ConfigStorage where
  | file (path : String) : ConfigStorage
  | memory : ConfigStorage

/-- Embedding of `SecretStorage` from `config/base.rs`: system keyring with
a service name, file-backed with a path, or in-memory. -/
inductive SecretStorage where
  | keyring (service : String) : SecretStorage
  | file (path : String) : SecretStorage
  | memory : SecretStorage

/-- Embedding of the `Config` struct: a config storage plus a secret
storage. -/
structure Config where
  config_storage : ConfigStorage
  secrets : SecretStorage

/-- State of the system keyring entry for goose secrets, as observed by
`entry.get_password()` in `load_secrets`: a stored string, the `NoEntry`
error, or some other keyring error. -/
inductive VaultState where
  | entry (content : String) : VaultState
  | noEntry : VaultState
  | accessError (msg : String) : VaultState

/-- The mutable world the config subsystem reads and writes: the process
environment, the decoded contents of the config and secrets files (`none`
when the file does not exist), the two process-wide in-memory maps
(`CONFIG_VALUES`, `SECRET_VALUES`), and the keyring entry. -/
structure World where
  env : List (String × String)
  configFile : Option Json
  secretsFile : Option Json
  memConfig : ValueMap
  memSecrets : ValueMap
  vault : VaultState

/-- Environment lookup, `std::env::var(name)` returning `Ok` iff the
variable is present. -/
def envVar (w : World) (name : String) : Option String :=
  w.env.lookup name

/-- The environment signals the `Default` constructors branch on:
whether `GOOSE_IN_MEMORY_CONFIG` is set and whether
`GOOSE_DISABLE_KEYRING` is set. -/
def inMemorySignal (w : World) : Bool :=
  (envVar w "GOOSE_IN_MEMORY_CONFIG").isSome

/-- Whether the `GOOSE_DISABLE_KEYRING` environment variable is set. -/
def disableKeyringSignal (w : World) : Bool :=
  (envVar w "GOOSE_DISABLE_KEYRING").isSome

/-- Embedding of `impl Default for Config` (`config/base.rs` lines
139-175).  `configDir` stands for the platform config directory computed
by `choose_app_strategy(..).config_dir()` (its failure aborts the process
and is outside this model). -/
def Config.defaultConfig (w : World) (configDir : String) : Config :=
  if inMemorySignal w then
    { config_storage := ConfigStorage.memory, secrets := SecretStorage.memory }
  else
    { config_storage := ConfigStorage.file (configDir ++ "/config.yaml")
      secrets :=
        if disableKeyringSignal w then
          SecretStorage.file (configDir ++ "/secrets.yaml")
        else
          SecretStorage.keyring "goose" }

/-- Extract the key-to-value mapping from a decoded file content, as
`load_values`/`load_secrets` do: a JSON object gives its fields, any
other decoded value gives the empty map (`_ => Ok(HashMap::new())`). -/
def objectFields : Json → ValueMap
  | Json.obj fields => fields
  | _ => []

/-- Embedding of `Config::load_values` (`config/base.rs` lines 258-280):
file storage reads and decodes the config file when it exists (absent
file gives the empty map); memory storage clones `CONFIG_VALUES`. -/
def Config.load_values (c : Config) (w : World) : Except ConfigError ValueMap :=
  match c.config_storage with
  | ConfigStorage.file _ =>
      match w.configFile with
      | some content => Except.ok (objectFields content)
      | none => Except.ok []
  | ConfigStorage.memory => Except.ok w.memConfig

/-- Insert-or-overwrite on an association list, the effect of
`HashMap::insert`. -/
def insertVal (m : ValueMap) (k : String) (v : Json) : ValueMap :=
  match m with
  | [] => [(k, v)]
  | (k', v') :: rest =>
      if k' = k then (k, v) :: rest else (k', v') :: insertVal rest k v

/-- Remove a key from an association list, the effect of
`HashMap::remove`. -/
def removeVal (m : ValueMap) (k : String) : ValueMap :=
  match m with
  | [] => []
  | (k', v') :: rest =>
      if k' = k then rest else (k', v') :: removeVal rest k

/-- Embedding of `Config::save_values` (`config/base.rs` lines 283-305) as
its effect on the world: file storage rewrites the whole config file with
the serialized mapping; memory storage replaces `CONFIG_VALUES`. -/
def Config.save_values (c : Config) (w : World) (values : ValueMap) : World :=
  match c.config_storage with
  | ConfigStorage.file _ => { w with configFile := some (Json.obj values) }
  | ConfigStorage.memory => { w with memConfig := values }

/-- Embedding of `Config::load_secrets` (`config/base.rs` lines 308-340).
`parseSecrets` stands for `serde_json::from_str::<HashMap<String, Value>>`
applied to the keyring blob.  Keyring: a present entry is decoded (decode
failure is a `DeserializeError`), `NoEntry` gives the empty map, any other
keyring failure is a `KeyringError`.  File: like `load_values` but on the
secrets file.  Memory: clone of `SECRET_VALUES`. -/
def Config.load_secrets (parseSecrets : String → Except String ValueMap)
    (c : Config) (w : World) : Except ConfigError ValueMap :=
  match c.secrets with
  | SecretStorage.keyring _ =>
      match w.vault with
      | VaultState.entry content =>
          match parseSecrets content with
          | Except.ok values => Except.ok values
          | Except.error e => Except.error (ConfigError.deserializeError e)
      | VaultState.noEntry => Except.ok []
      | VaultState.accessError e => Except.error (ConfigError.keyringError e)
  | SecretStorage.file _ =>
      match w.secretsFile with
      | some content => Except.ok (objectFields content)
      | none => Except.ok []
  | SecretStorage.memory => Except.ok w.memSecrets

/-- Embedding of `key.to_uppercase()`: uppercase every character of the
key (configuration keys are ASCII, where this agrees with Rust's Unicode
uppercasing). -/
def upperKey (key : String) : String :=
  String.mk (key.data.map Char.toUpper)

/-- The value an environment variable string denotes, from `get_param` /
`get_secret`: parsed as JSON when possible
(`serde_json::from_str(&val)`), otherwise the raw string
(`unwrap_or(Value::String(val))`).  `parseJson` stands for the JSON
string parser. -/
def envValue (parseJson : String → Option Json) (val : String) : Json :=
  (parseJson val).getD (Json.str val)

/-- Embedding of `Config::get_param` (`config/base.rs` lines 376-393) at
the `Value` instantiation of its type parameter (where the final
`serde_json::from_value` is the identity and cannot fail): uppercase the
key, return the environment value immediately when the variable exists,
otherwise load the persisted values and look the key up. -/
def Config.get_param (parseJson : String → Option Json) (c : Config)
    (w : World) (key : String) : Except ConfigError Json :=
  match envVar w (upperKey key) with
  | some val => Except.ok (envValue parseJson val)
  | none =>
      match c.load_values w with
      | Except.error e => Except.error e
      | Except.ok values =>
          match values.lookup key with
          | some v => Except.ok v
          | none => Except.error (ConfigError.notFound key)

/-- Embedding of `Config::set_param` (`config/base.rs` lines 408-413):
load the persisted mapping, insert/overwrite the key, save the whole
mapping back. -/
def Config.set_param (c : Config) (w : World) (key : String) (value : Json) :
    Except ConfigError World :=
  match c.load_values w with
  | Except.error e => Except.error e
  | Except.ok values => Except.ok (c.save_values w (insertVal values key value))

/-- Embedding of `Config::get_secret` (`config/base.rs` lines 451-465) at
the `Value` instantiation: uppercase the key, return the environment
value immediately when the variable exists, otherwise load the secrets
and look the key up. -/
def Config.get_secret (parseJson : String → Option Json)
    (parseSecrets : String → Except String ValueMap) (c : Config)
    (w : World) (key : String) : Except ConfigError Json :=
  match envVar w (upperKey key) with
  | some val => Except.ok (envValue parseJson val)
  | none =>
      match Config.load_secrets parseSecrets c w with
      | Except.error e => Except.error e
      | Except.ok values =>
          match values.lookup key with
          | some v => Except.ok v
          | none => Except.error (ConfigError.notFound key)

/-- Effect of the storage write in `Config::set_secret` /
`Config::delete_secret` on the world, given the new mapping: keyring
storage re-serializes the whole mapping into the single entry
(`serializeSecrets` stands for `serde_json::to_string`), file storage
rewrites the secrets file, memory storage replaces `SECRET_VALUES`. -/
def writeSecrets (serializeSecrets : ValueMap → String) (c : Config)
    (w : World) (values : ValueMap) : World :=
  match c.secrets with
  | SecretStorage.keyring _ => { w with vault := VaultState.entry (serializeSecrets values) }
  | SecretStorage.file _ => { w with secretsFile := some (Json.obj values) }
  | SecretStorage.memory => { w with memSecrets := values }

/-- Embedding of `Config::set_secret` (`config/base.rs` lines 481-502):
load all secrets, insert/overwrite the key, write the whole mapping
back. -/
def Config.set_secret (parseSecrets : String → Except String ValueMap)
    (serializeSecrets : ValueMap → String) (c : Config) (w : World)
    (key : String) (value : Json) : Except ConfigError World :=
  match Config.load_secrets parseSecrets c w with
  | Except.error e => Except.error e
  | Except.ok values =>
      Except.ok (writeSecrets serializeSecrets c w (insertVal values key value))

/-- Embedding of `Config::delete_secret` (`config/base.rs` lines 514-535):
load all secrets, remove the key, write the whole mapping back. -/
def Config.delete_secret (parseSecrets : String → Except String ValueMap)
    (serializeSecrets : ValueMap → String) (c : Config) (w : World)
    (key : String) : Except ConfigError World :=
  match Config.load_secrets parseSecrets c w with
  | Except.error e => Except.error e
  | Except.ok values =>
      Except.ok (writeSecrets serializeSecrets c w (removeVal values key))

/-- Embedding of `ToolCall` (from `mcp_core::tool`, the shape the store's
code and tests use): a tool name and a JSON argument payload. -/
structure ToolCall where
  name : String
  arguments : Json

/-- Embedding of `ToolRequest` (from `crate::message`, external to these
two files; the tests construct it with `tool_call: Ok(..)`): an id and a
`Result`-valued tool call. -/
structure ToolRequest where
  id : String
  tool_call : Except String ToolCall

/-- The external functions the permission store calls out to:
`serde_json::to_string` on an argument payload, the blake3 hex digest of
a string, and `ToolRequest::to_readable_string`. -/
structure ExternalFns where
  serializeArgs : Json → String
  blake3Hex : String → String
  toReadableString : ToolRequest → String

/-- Embedding of `ToolPermissionRecord` (`permission_store.rs` lines
11-20).  Timestamps are i64 epoch seconds. -/
structure ToolPermissionRecord where
  tool_name : String
  allowed : Bool
  context_hash : String
  readable_context : Option String
  timestamp : Int
  expiry : Option Int
deriving DecidableEq, Repr

/-- Embedding of `StorageType` from `permission_store.rs`: in-memory, or
file-backed in a permissions directory. -/
inductive StorageType where
  | memory : StorageType
  | file (permissions_dir : String) : StorageType
deriving DecidableEq, Repr

/-- The permissions map: lookup key to ordered record history
(`HashMap<String, Vec<ToolPermissionRecord>>`). -/
abbrev Permissions := List (String × List ToolPermissionRecord)

/-- Embedding of `ToolPermissionStore` (`permission_store.rs` lines
38-44). -/
structure ToolPermissionStore where
  permissions : Permissions
  version : Nat
  storage : StorageType
deriving DecidableEq, Repr

/-- Embedding of `ToolPermissionStore::new` (`permission_store.rs` lines
53-72): in-memory when `GOOSE_IN_MEMORY_CONFIG` is set, otherwise
file-backed in the platform config directory (`permissionsDir`). -/
def ToolPermissionStore.new (w : World) (permissionsDir : String) :
    ToolPermissionStore :=
  if inMemorySignal w then
    { permissions := [], version := 1, storage := StorageType.memory }
  else
    { permissions := [], version := 1, storage := StorageType.file permissionsDir }

/-- Embedding of `ToolPermissionStore::hash_tool_context`
(`permission_store.rs` lines 180-190).  The `unwrap` on
`tool_request.tool_call` panics when the tool call is an `Err`; a panic
is `none`. -/
def hash_tool_context (ext : ExternalFns) (tool_request : ToolRequest) :
    Option String :=
  match tool_request.tool_call with
  | Except.error _ => none
  | Except.ok tc => some (ext.blake3Hex (ext.serializeArgs tc.arguments))

/-- Whether a record is still valid at time `now`: the `retain`/`filter`
condition `record.expiry.is_none_or(|exp| exp > now)`. -/
def validAt (now : Int) (record : ToolPermissionRecord) : Bool :=
  match record.expiry with
  | none => true
  | some exp => exp > now

/-- Embedding of `ToolPermissionStore::check_permission`
(`permission_store.rs` lines 141-153): hash the context, rebuild the
lookup key, filter the key's records to the still-valid ones, take the
last (`next_back`), return its `allowed` flag.  The outer `Option` is a
panic (an `unwrap` on an `Err` tool call). -/
def ToolPermissionStore.check_permission (ext : ExternalFns)
    (s : ToolPermissionStore) (tool_request : ToolRequest) (now : Int) :
    Option (Option Bool) :=
  match hash_tool_context ext tool_request with
  | none => none
  | some context_hash =>
      match tool_request.tool_call with
      | Except.error _ => none
      | Except.ok tool_call =>
          let key := tool_call.name ++ ":" ++ context_hash
          some ((s.permissions.lookup key).bind fun records =>
            ((records.filter (validAt now)).getLast?).map
              (fun record => record.allowed))

/-- Append a record to the history of a key, inserting the key with a
fresh singleton history when absent:
`self.permissions.entry(key).or_default().push(record)`. -/
def pushAt (perms : Permissions) (key : String)
    (record : ToolPermissionRecord) : Permissions :=
  match perms with
  | [] => [(key, [record])]
  | (k, records) :: rest =>
      if k = key then (k, records ++ [record]) :: rest
      else (k, records) :: pushAt rest key record

/-- Outcome of the filesystem portion of `ToolPermissionStore::save`, an
input to the mutating operations (disk full, permission denied, ...). -/
abbrev SaveOutcome := Except String Unit

/-- Embedding of `ToolPermissionStore::save` (`permission_store.rs` lines
114-139) as its result: memory storage always succeeds without touching
disk; file storage succeeds or fails with the given filesystem outcome.
`save` takes `&self` and never mutates the in-memory store. -/
def ToolPermissionStore.saveResult (s : ToolPermissionStore)
    (fsOutcome : SaveOutcome) : SaveOutcome :=
  match s.storage with
  | StorageType.memory => Except.ok ()
  | StorageType.file _ => fsOutcome

/-- The record `record_permission` constructs (`permission_store.rs`
lines 165-172): `timestamp = now`, `expiry = now + duration` when a
duration is supplied else absent. -/
def newRecord (ext : ExternalFns) (tool_request : ToolRequest)
    (tool_call : ToolCall) (allowed : Bool) (expiry_duration : Option Nat)
    (now : Int) : ToolPermissionRecord :=
  { tool_name := tool_call.name
    allowed := allowed
    context_hash := ext.blake3Hex (ext.serializeArgs tool_call.arguments)
    readable_context := some (ext.toReadableString tool_request)
    timestamp := now
    expiry := expiry_duration.map (fun d => now + (d : Int)) }

/-- The in-memory store after `record_permission`'s
`self.permissions.entry(key).or_default().push(record)`. -/
def recordedStore (ext : ExternalFns) (s : ToolPermissionStore)
    (tool_request : ToolRequest) (tool_call : ToolCall) (allowed : Bool)
    (expiry_duration : Option Nat) (now : Int) : ToolPermissionStore :=
  let key := tool_call.name ++ ":" ++ ext.blake3Hex (ext.serializeArgs tool_call.arguments)
  let record := newRecord ext tool_request tool_call allowed expiry_duration now
  { s with permissions := pushAt s.permissions key record }

/-- Embedding of `ToolPermissionStore::record_permission`
(`permission_store.rs` lines 155-178): hash the context (panicking on an
`Err` tool call, the outer `none`), build a record with
`timestamp = now` and `expiry = now + duration` when a duration is
supplied, append it under the lookup key (`recordedStore`), then save.
The result is the store as left in memory together with the propagated
save result. -/
def ToolPermissionStore.record_permission (ext : ExternalFns)
    (s : ToolPermissionStore) (tool_request : ToolRequest) (allowed : Bool)
    (expiry_duration : Option Nat) (now : Int) (fsOutcome : SaveOutcome) :
    Option (ToolPermissionStore × SaveOutcome) :=
  match hash_tool_context ext tool_request with
  | none => none
  | some _ =>
      match tool_request.tool_call with
      | Except.error _ => none
      | Except.ok tool_call =>
          let mutated : ToolPermissionStore :=
            recordedStore ext s tool_request tool_call allowed expiry_duration now
          some (mutated, mutated.saveResult fsOutcome)

/-- Embedding of the `retain` pass of `ToolPermissionStore::cleanup_expired`
(`permission_store.rs` lines 192-206) as its in-memory effect plus the
`changed` flag: each key's records are filtered to the still-valid ones,
`changed` is set exactly when some key's filtered history is empty, and
exactly those keys are dropped. -/
def cleanupPass (perms : Permissions) (now : Int) : Permissions × Bool :=
  match perms with
  | [] => ([], false)
  | (k, records) :: rest =>
      let kept := records.filter (validAt now)
      let restResult := cleanupPass rest now
      if kept.isEmpty then (restResult.1, true)
      else ((k, kept) :: restResult.1, restResult.2)

/-- Embedding of `ToolPermissionStore::cleanup_expired`: run the retain
pass, and save only when `changed` is set.  The result is the store as
left in memory together with the result of the call. -/
def ToolPermissionStore.cleanup_expired (s : ToolPermissionStore)
    (now : Int) (fsOutcome : SaveOutcome) :
    ToolPermissionStore × SaveOutcome :=
  let result := cleanupPass s.permissions now
  let mutated : ToolPermissionStore := { s with permissions := result.1 }
  (mutated, if result.2 then mutated.saveResult fsOutcome else Except.ok ())

/-- A filesystem action performed by a persisting write.  `writeFile`
writes the complete serialized content to the path in one call. -/
inductive FsAction where
  | createDirAll (dir : String) : FsAction
  | writeFile (path : String) : FsAction
  | rename (src : String) (dst : String) : FsAction
deriving DecidableEq, Repr

/-- Membership of an action in a plan, as a boolean. -/
def hasAction (plan : List FsAction) (a : FsAction) : Bool :=
  plan.any fun b => decide (b = a)

/-- A plan atomically replaces `target` when it writes some distinct
temporary path and renames it over `target`, and never writes `target`
directly. -/
def isAtomicReplace (plan : List FsAction) (target : String) : Bool :=
  (plan.any fun a =>
    match a with
    | FsAction.rename src dst =>
        decide (dst = target) && decide (src ≠ target) &&
          hasAction plan (FsAction.writeFile src)
    | _ => false) &&
  !(hasAction plan (FsAction.writeFile target))

/-- The target path of the permission store's save:
`permissions_dir.join("tool_permissions.json")`. -/
def permissionsPath (permissions_dir : String) : String :=
  permissions_dir ++ "/tool_permissions.json"

/-- The temporary path of the permission store's save:
`path.with_extension("tmp")`. -/
def permissionsTempPath (permissions_dir : String) : String :=
  permissions_dir ++ "/tool_permissions.tmp"

/-- The filesystem actions of `ToolPermissionStore::save`
(`permission_store.rs` lines 114-139): nothing for memory storage; for
file storage, create the directory, write the complete content to the
`.tmp` sibling, and atomically rename it over the target. -/
def ToolPermissionStore.savePlan (storage : StorageType) : List FsAction :=
  match storage with
  | StorageType.memory => []
  | StorageType.file dir =>
      [FsAction.createDirAll dir,
       FsAction.writeFile (permissionsTempPath dir),
       FsAction.rename (permissionsTempPath dir) (permissionsPath dir)]

/-- The parent directory of a path (`path.parent()`), as the prefix before
the final slash. -/
def parentDir (path : String) : String :=
  String.intercalate "/" (path.splitOn "/").dropLast

/-- The filesystem actions of `Config::save_values` (`config/base.rs`
lines 283-305): nothing for memory storage; for file storage, create the
parent directory and write the serialized mapping directly to the target
path (`std::fs::write(path, yaml_value)`). -/
def Config.saveValuesPlan (storage : ConfigStorage) : List FsAction :=
  match storage with
  | ConfigStorage.memory => []
  | ConfigStorage.file path =>
      [FsAction.createDirAll (parentDir path), FsAction.writeFile path]

/-- The filesystem actions of the write step of `Config::set_secret` and
`Config::delete_secret` (`config/base.rs` lines 485-500 and 518-533):
keyring and memory storage touch no files; file storage writes the
serialized mapping directly to the secrets path
(`std::fs::write(path, yaml_value)`). -/
def Config.secretWritePlan (storage : SecretStorage) : List FsAction :=
  match storage with
  | SecretStorage.keyring _ => []
  | SecretStorage.memory => []
  | SecretStorage.file path => [FsAction.writeFile path]

/-! Helper lemmas about the association-list operations. -/

theorem lookup_insertVal_self (m : ValueMap) (k : String) (v : Json) :
    (insertVal m k v).lookup k = some v := by
  induction m with
  | nil => simp [insertVal, List.lookup]
  | cons kv rest ih =>
      obtain ⟨k', v'⟩ := kv
      by_cases h : k' = k
      · subst h
        simp [insertVal, List.lookup]
      · have hbeq : (k == k') = false := by
          simp [Ne.symm h]
        simp [insertVal, h, List.lookup, ih, hbeq]

theorem find?_eq_head?_filter' {α : Type} (p : α → Bool) (l : List α) :
    l.find? p = (l.filter p).head? := by
  induction l with
  | nil => rfl
  | cons a t ih =>
      cases hpa : p a with
      | true => simp only [List.find?, List.filter, hpa, List.head?]
      | false =>
          simp only [List.find?, List.filter, hpa]
          exact ih

theorem filter_reverse' {α : Type} (p : α → Bool) (l : List α) :
    l.reverse.filter p = (l.filter p).reverse := by
  induction l with
  | nil => rfl
  | cons a t ih =>
      cases hpa : p a <;>
        simp [List.filter_cons, List.filter_append, hpa, ih]

theorem getLast?_filter_eq_find?_reverse {α : Type} (p : α → Bool) (l : List α) :
    (l.filter p).getLast? = l.reverse.find? p := by
  rw [find?_eq_head?_filter', filter_reverse', List.head?_reverse]

/-- The `check_permission` algorithm exactly as the specification words it:
compute the lookup key from the tool name and the context hash, fetch the
key's record list, keep the records whose expiry is absent or still in the
future, take the most recently appended surviving record, and return its
`allowed` flag; `None` when the key is absent or no record survives. -/
def checkPermissionSpec (ext : ExternalFns) (perms : Permissions)
    (tool_call : ToolCall) (now : Int) : Option Bool :=
  let key := tool_call.name ++ ":" ++ ext.blake3Hex (ext.serializeArgs tool_call.arguments)
  match perms.lookup key with
  | none => none
  | some records =>
      ((records.reverse.find? (validAt now)).map (fun record => record.allowed))

/-- Claim C3: for every store and every request whose tool call is present,
`check_permission` computes the lookup key (tool name, a colon, the
context hash), filters that key's record list to the records whose expiry
is absent or still in the future, and returns `some` of the `allowed`
flag of the most recently appended surviving record, or `none` when no
record survives or the key is absent — i.e. it agrees with the
specification's algorithm. -/
theorem check_permission_correct (ext : ExternalFns) (s : ToolPermissionStore)
    (tool_request : ToolRequest) (tc : ToolCall) (now : Int)
    (h : tool_request.tool_call = Except.ok tc) :
    s.check_permission ext tool_request now =
      some (checkPermissionSpec ext s.permissions tc now) := by
  simp only [ToolPermissionStore.check_permission, hash_tool_context, h,
    checkPermissionSpec]
  cases s.permissions.lookup
      (tc.name ++ ":" ++ ext.blake3Hex (ext.serializeArgs tc.arguments)) with
  | none => rfl
  | some records =>
      simp [getLast?_filter_eq_find?_reverse]

/-- Witness for C3 at a concrete store: two records under one key, the
later one not expired; the code's answer matches the specification's
algorithm. -/
theorem check_permission_correct_witness :
    ({ id := "1", tool_call := Except.ok { name := "t", arguments := Json.null } } :
        ToolRequest).tool_call =
      Except.ok ({ name := "t", arguments := Json.null } : ToolCall) ∧
    ToolPermissionStore.check_permission
      { serializeArgs := fun _ => "null", blake3Hex := fun s => s,
        toReadableString := fun _ => "req" }
      { permissions := [("t:null",
          [{ tool_name := "t", allowed := false, context_hash := "null",
             readable_context := none, timestamp := 0, expiry := some 5 },
           { tool_name := "t", allowed := true, context_hash := "null",
             readable_context := none, timestamp := 1, expiry := none }])],
        version := 1, storage := StorageType.memory }
      { id := "1", tool_call := Except.ok { name := "t", arguments := Json.null } }
      10 =
      some (checkPermissionSpec
        { serializeArgs := fun _ => "null", blake3Hex := fun s => s,
          toReadableString := fun _ => "req" }
        [("t:null",
          [{ tool_name := "t", allowed := false, context_hash := "null",
             readable_context := none, timestamp := 0, expiry := some 5 },
           { tool_name := "t", allowed := true, context_hash := "null",
             readable_context := none, timestamp := 1, expiry := none }])]
        { name := "t", arguments := Json.null } 10) :=
  ⟨rfl, check_permission_correct _ _ _ _ _ rfl⟩

/-- Claim C4: when an environment variable named `uppercase(key)` exists,
`get_param` and `get_secret` return the environment's value — parsed as
JSON when possible, otherwise the raw string — for every configuration
and every world state sharing that environment, so the persisted layer is
never consulted and a malformed environment value is never forwarded to
it.  (The typed deserialization is instantiated at `Value`, where it is
the identity.) -/
theorem env_always_wins (parseJson : String → Option Json)
    (parseSecrets : String → Except String ValueMap) (c : Config) (w : World)
    (key val : String) (h : envVar w (upperKey key) = some val) :
    Config.get_param parseJson c w key = Except.ok (envValue parseJson val) ∧
    Config.get_secret parseJson parseSecrets c w key =
      Except.ok (envValue parseJson val) := by
  constructor
  · simp [Config.get_param, h]
  · simp [Config.get_secret, h]

/-- Witness for C4: with `API_KEY` set in the environment and a different
value persisted everywhere, both getters return the environment's value. -/
theorem env_always_wins_witness :
    envVar
      { env := [("API_KEY", "env_secret")],
        configFile := some (Json.obj [("api_key", Json.str "file")]),
        secretsFile := some (Json.obj [("api_key", Json.str "file")]),
        memConfig := [("api_key", Json.str "mem")],
        memSecrets := [("api_key", Json.str "mem")],
        vault := VaultState.noEntry } (upperKey "api_key") =
      some "env_secret" ∧
    Config.get_param (fun _ => none)
      { config_storage := ConfigStorage.file "c", secrets := SecretStorage.keyring "goose" }
      { env := [("API_KEY", "env_secret")],
        configFile := some (Json.obj [("api_key", Json.str "file")]),
        secretsFile := some (Json.obj [("api_key", Json.str "file")]),
        memConfig := [("api_key", Json.str "mem")],
        memSecrets := [("api_key", Json.str "mem")],
        vault := VaultState.noEntry } "api_key" =
      Except.ok (envValue (fun _ => none) "env_secret") :=
  ⟨rfl,
   (env_always_wins (fun _ => none) (fun _ => Except.ok [])
      { config_storage := ConfigStorage.file "c", secrets := SecretStorage.keyring "goose" }
      { env := [("API_KEY", "env_secret")],
        configFile := some (Json.obj [("api_key", Json.str "file")]),
        secretsFile := some (Json.obj [("api_key", Json.str "file")]),
        memConfig := [("api_key", Json.str "mem")],
        memSecrets := [("api_key", Json.str "mem")],
        vault := VaultState.noEntry } "api_key" "env_secret" rfl).1⟩

/-- Claim C5: default construction follows the decision table.  When the
in-memory signal (`GOOSE_IN_MEMORY_CONFIG`) is present, both storages are
`Memory` unconditionally; otherwise config storage is `File` at the
config path, and secret storage is the keyring with the default service
unless the vault-disable signal (`GOOSE_DISABLE_KEYRING`) is present, in
which case it is `File` at the sibling secrets path.  The permission
store's constructor follows the same in-memory signal. -/
theorem default_config_decision_table (w : World) (dir : String) :
    (inMemorySignal w = true →
      Config.defaultConfig w dir =
        { config_storage := ConfigStorage.memory, secrets := SecretStorage.memory }) ∧
    (inMemorySignal w = false → disableKeyringSignal w = false →
      Config.defaultConfig w dir =
        { config_storage := ConfigStorage.file (dir ++ "/config.yaml"),
          secrets := SecretStorage.keyring "goose" }) ∧
    (inMemorySignal w = false → disableKeyringSignal w = true →
      Config.defaultConfig w dir =
        { config_storage := ConfigStorage.file (dir ++ "/config.yaml"),
          secrets := SecretStorage.file (dir ++ "/secrets.yaml") }) ∧
    (inMemorySignal w = true →
      ToolPermissionStore.new w dir =
        { permissions := [], version := 1, storage := StorageType.memory }) ∧
    (inMemorySignal w = false →
      ToolPermissionStore.new w dir =
        { permissions := [], version := 1, storage := StorageType.file dir }) := by
  refine ⟨fun h₁ => ?_, fun h₁ h₂ => ?_, fun h₁ h₂ => ?_, fun h₁ => ?_, fun h₁ => ?_⟩
  · simp [Config.defaultConfig, h₁]
  · simp [Config.defaultConfig, h₁, h₂]
  · simp [Config.defaultConfig, h₁, h₂]
  · simp [ToolPermissionStore.new, h₁]
  · simp [ToolPermissionStore.new, h₁]

/-- Witness for C5, exercising all three rows of the decision table with
concrete environments. -/
theorem default_config_decision_table_witness :
    Config.defaultConfig
        { env := [("GOOSE_IN_MEMORY_CONFIG", "1")], configFile := none,
          secretsFile := none, memConfig := [], memSecrets := [],
          vault := VaultState.noEntry } "d" =
      { config_storage := ConfigStorage.memory, secrets := SecretStorage.memory } ∧
    Config.defaultConfig
        { env := [], configFile := none, secretsFile := none, memConfig := [],
          memSecrets := [], vault := VaultState.noEntry } "d" =
      { config_storage := ConfigStorage.file "d/config.yaml",
        secrets := SecretStorage.keyring "goose" } ∧
    Config.defaultConfig
        { env := [("GOOSE_DISABLE_KEYRING", "1")], configFile := none,
          secretsFile := none, memConfig := [], memSecrets := [],
          vault := VaultState.noEntry } "d" =
      { config_storage := ConfigStorage.file "d/config.yaml",
        secrets := SecretStorage.file "d/secrets.yaml" } ∧
    ToolPermissionStore.new
        { env := [("GOOSE_IN_MEMORY_CONFIG", "1")], configFile := none,
          secretsFile := none, memConfig := [], memSecrets := [],
          vault := VaultState.noEntry } "d" =
      { permissions := [], version := 1, storage := StorageType.memory } :=
  ⟨(default_config_decision_table
      { env := [("GOOSE_IN_MEMORY_CONFIG", "1")], configFile := none,
        secretsFile := none, memConfig := [], memSecrets := [],
        vault := VaultState.noEntry } "d").1 rfl,
   (default_config_decision_table
      { env := [], configFile := none, secretsFile := none, memConfig := [],
        memSecrets := [], vault := VaultState.noEntry } "d").2.1 rfl rfl,
   (default_config_decision_table
      { env := [("GOOSE_DISABLE_KEYRING", "1")], configFile := none,
        secretsFile := none, memConfig := [], memSecrets := [],
        vault := VaultState.noEntry } "d").2.2.1 rfl rfl,
   (default_config_decision_table
      { env := [("GOOSE_IN_MEMORY_CONFIG", "1")], configFile := none,
        secretsFile := none, memConfig := [], memSecrets := [],
        vault := VaultState.noEntry } "d").2.2.2.1 rfl⟩

/-- Claim C7: with keyring-backed secrets, an absent vault entry makes
`load_secrets` return the empty mapping rather than an error, while any
other vault access failure is returned as a keyring error. -/
theorem load_secrets_vault_behaviour (parseSecrets : String → Except String ValueMap)
    (cs : ConfigStorage) (service : String) (w : World) (e : String) :
    Config.load_secrets parseSecrets
        { config_storage := cs, secrets := SecretStorage.keyring service }
        { w with vault := VaultState.noEntry } = Except.ok [] ∧
    Config.load_secrets parseSecrets
        { config_storage := cs, secrets := SecretStorage.keyring service }
        { w with vault := VaultState.accessError e } =
      Except.error (ConfigError.keyringError e) := by
  exact ⟨rfl, rfl⟩

/-- Claim C10: for any request whose `tool_call` field is an error, both
`check_permission` and `record_permission` panic on the `unwrap` (the
embedding's `none`) instead of returning an answer or a typed error. -/
theorem err_tool_call_panics (ext : ExternalFns) (s : ToolPermissionStore)
    (tool_request : ToolRequest) (now : Int) (allowed : Bool)
    (expiry_duration : Option Nat) (fsOutcome : SaveOutcome) (e : String)
    (h : tool_request.tool_call = Except.error e) :
    s.check_permission ext tool_request now = none ∧
    s.record_permission ext tool_request allowed expiry_duration now fsOutcome =
      none := by
  constructor
  · simp [ToolPermissionStore.check_permission, hash_tool_context, h]
  · simp [ToolPermissionStore.record_permission, hash_tool_context, h]

/-- Witness for C10 at a concrete request carrying an error tool call. -/
theorem err_tool_call_panics_witness :
    ({ id := "1", tool_call := Except.error "bad call" } : ToolRequest).tool_call =
      Except.error "bad call" ∧
    ToolPermissionStore.check_permission
      { serializeArgs := fun _ => "", blake3Hex := fun s => s,
        toReadableString := fun _ => "" }
      { permissions := [], version := 1, storage := StorageType.memory }
      { id := "1", tool_call := Except.error "bad call" } 0 = none :=
  ⟨rfl,
   (err_tool_call_panics
      { serializeArgs := fun _ => "", blake3Hex := fun s => s,
        toReadableString := fun _ => "" }
      { permissions := [], version := 1, storage := StorageType.memory }
      { id := "1", tool_call := Except.error "bad call" } 0 true none
      (Except.ok ()) "bad call" rfl).1⟩

/-! Round-trip lemmas for the persisted layers. -/

theorem load_values_ok (c : Config) (w : World) :
    ∃ m, c.load_values w = Except.ok m := by
  obtain ⟨cs, ss⟩ := c
  cases cs with
  | file p =>
      cases hcf : w.configFile with
      | none => exact ⟨[], by simp [Config.load_values, hcf]⟩
      | some content => exact ⟨objectFields content, by simp [Config.load_values, hcf]⟩
  | memory => exact ⟨w.memConfig, rfl⟩

theorem load_values_save_values (c : Config) (w : World) (m : ValueMap) :
    c.load_values (c.save_values w m) = Except.ok m := by
  obtain ⟨cs, ss⟩ := c
  cases cs <;> simp [Config.load_values, Config.save_values, objectFields]

theorem env_save_values (c : Config) (w : World) (m : ValueMap) :
    (c.save_values w m).env = w.env := by
  obtain ⟨cs, ss⟩ := c
  cases cs <;> simp [Config.save_values]

theorem env_writeSecrets (serializeSecrets : ValueMap → String) (c : Config)
    (w : World) (m : ValueMap) :
    (writeSecrets serializeSecrets c w m).env = w.env := by
  obtain ⟨cs, ss⟩ := c
  cases ss <;> simp [writeSecrets]

theorem load_secrets_writeSecrets_nonKeyring
    (parseSecrets : String → Except String ValueMap)
    (serializeSecrets : ValueMap → String) (c : Config) (w : World)
    (m : ValueMap)
    (hsec : c.secrets = SecretStorage.memory ∨
      ∃ p, c.secrets = SecretStorage.file p) :
    Config.load_secrets parseSecrets c (writeSecrets serializeSecrets c w m) =
      Except.ok m := by
  rcases hsec with hss | ⟨p, hss⟩ <;>
    simp [Config.load_secrets, writeSecrets, hss, objectFields]

/-- Claim C6: `set(k, v)` followed by `get(k)` returns `v` exactly, for
every config storage mode (memory or file) and for secret storage in
memory or vault-disabled file mode, provided no environment variable
named `uppercase(k)` shadows the key. -/
theorem set_get_roundtrip (parseJson : String → Option Json)
    (parseSecrets : String → Except String ValueMap)
    (serializeSecrets : ValueMap → String) (c : Config) (w : World)
    (k : String) (v : Json)
    (henv : envVar w (upperKey k) = none)
    (hsec : c.secrets = SecretStorage.memory ∨
      ∃ p, c.secrets = SecretStorage.file p) :
    (∃ w', c.set_param w k v = Except.ok w' ∧
        Config.get_param parseJson c w' k = Except.ok v) ∧
    (∃ w', Config.set_secret parseSecrets serializeSecrets c w k v = Except.ok w' ∧
        Config.get_secret parseJson parseSecrets c w' k = Except.ok v) := by
  constructor
  · obtain ⟨m, hm⟩ := load_values_ok c w
    refine ⟨c.save_values w (insertVal m k v), ?_, ?_⟩
    · simp [Config.set_param, hm]
    · have henv' : envVar (c.save_values w (insertVal m k v)) (upperKey k) = none := by
        simpa [envVar, env_save_values] using henv
      simp [Config.get_param, henv', load_values_save_values, lookup_insertVal_self]
  · have hload : ∃ m, Config.load_secrets parseSecrets c w = Except.ok m := by
      rcases hsec with hss | ⟨p, hss⟩
      · exact ⟨w.memSecrets, by simp [Config.load_secrets, hss]⟩
      · cases hsf : w.secretsFile with
        | none => exact ⟨[], by simp [Config.load_secrets, hss, hsf]⟩
        | some content =>
            exact ⟨objectFields content, by simp [Config.load_secrets, hss, hsf]⟩
    obtain ⟨m, hm⟩ := hload
    refine ⟨writeSecrets serializeSecrets c w (insertVal m k v), ?_, ?_⟩
    · simp [Config.set_secret, hm]
    · have henv' :
        envVar (writeSecrets serializeSecrets c w (insertVal m k v)) (upperKey k) =
          none := by
        simpa [envVar, env_writeSecrets] using henv
      simp [Config.get_secret, henv',
        load_secrets_writeSecrets_nonKeyring parseSecrets serializeSecrets c w _ hsec,
        lookup_insertVal_self]

/-- Witness for C6: a concrete round trip through a file-backed config
with file-backed (vault-disabled) secrets and an empty environment. -/
theorem set_get_roundtrip_witness :
    envVar
      { env := [], configFile := none, secretsFile := none, memConfig := [],
        memSecrets := [], vault := VaultState.noEntry } (upperKey "server") = none ∧
    ((∃ w', Config.set_param
          { config_storage := ConfigStorage.file "c/config.yaml",
            secrets := SecretStorage.file "c/secrets.yaml" }
          { env := [], configFile := none, secretsFile := none, memConfig := [],
            memSecrets := [], vault := VaultState.noEntry } "server"
          (Json.str "localhost") = Except.ok w' ∧
        Config.get_param (fun _ => none)
          { config_storage := ConfigStorage.file "c/config.yaml",
            secrets := SecretStorage.file "c/secrets.yaml" } w' "server" =
          Except.ok (Json.str "localhost")) ∧
      (∃ w', Config.set_secret (fun _ => Except.ok []) (fun _ => "")
          { config_storage := ConfigStorage.file "c/config.yaml",
            secrets := SecretStorage.file "c/secrets.yaml" }
          { env := [], configFile := none, secretsFile := none, memConfig := [],
            memSecrets := [], vault := VaultState.noEntry } "server"
          (Json.str "localhost") = Except.ok w' ∧
        Config.get_secret (fun _ => none) (fun _ => Except.ok [])
          { config_storage := ConfigStorage.file "c/config.yaml",
            secrets := SecretStorage.file "c/secrets.yaml" } w' "server" =
          Except.ok (Json.str "localhost"))) :=
  ⟨rfl,
   set_get_roundtrip (fun _ => none) (fun _ => Except.ok []) (fun _ => "")
     { config_storage := ConfigStorage.file "c/config.yaml",
       secrets := SecretStorage.file "c/secrets.yaml" }
     { env := [], configFile := none, secretsFile := none, memConfig := [],
       memSecrets := [], vault := VaultState.noEntry } "server"
     (Json.str "localhost") rfl (Or.inr ⟨"c/secrets.yaml", rfl⟩)⟩

/-! Lemmas about the cleanup pass. -/

theorem cleanupPass_lookup_none (perms : Permissions) (now : Int) (key : String)
    (h : key ∉ perms.map Prod.fst) :
    (cleanupPass perms now).1.lookup key = none := by
  induction perms with
  | nil => rfl
  | cons kv rest ih =>
      obtain ⟨k, records⟩ := kv
      simp only [List.map_cons, List.mem_cons] at h
      push_neg at h
      obtain ⟨hk, hrest⟩ := h
      have hbeq : (key == k) = false := by simp [hk]
      by_cases hkept : (records.filter (validAt now)).isEmpty
      · simp [cleanupPass, hkept, ih hrest]
      · simp [cleanupPass, hkept, List.lookup, hbeq, ih hrest]

theorem cleanupPass_changed (perms : Permissions) (now : Int) :
    (cleanupPass perms now).2 =
      perms.any (fun e => (e.2.filter (validAt now)).isEmpty) := by
  induction perms with
  | nil => rfl
  | cons kv rest ih =>
      obtain ⟨k, records⟩ := kv
      by_cases hkept : (records.filter (validAt now)).isEmpty
      · simp [cleanupPass, hkept]
      · simp [cleanupPass, hkept, ih]

theorem cleanupPass_lookup (perms : Permissions) (now : Int) (key : String)
    (hnodup : (perms.map Prod.fst).Nodup) :
    (cleanupPass perms now).1.lookup key =
      (match perms.lookup key with
      | none => none
      | some records =>
          if (records.filter (validAt now)).isEmpty then none
          else some (records.filter (validAt now))) := by
  induction perms with
  | nil => rfl
  | cons kv rest ih =>
      obtain ⟨k, records⟩ := kv
      simp only [List.map_cons, List.nodup_cons] at hnodup
      obtain ⟨hknotin, hnodup'⟩ := hnodup
      by_cases hk : k = key
      · subst hk
        have hbeq : (k == k) = true := by simp
        by_cases hkept : (records.filter (validAt now)).isEmpty
        · simp [cleanupPass, hkept, List.lookup, hbeq,
            cleanupPass_lookup_none rest now k hknotin]
        · simp [cleanupPass, hkept, List.lookup, hbeq]
      · have hbeq : (key == k) = false := by simp [Ne.symm hk]
        by_cases hkept : (records.filter (validAt now)).isEmpty
        · simp [cleanupPass, hkept, List.lookup, hbeq, ih hnodup']
        · simp [cleanupPass, hkept, List.lookup, hbeq, ih hnodup']

/-- Claim C1, counterexample: a store whose only key holds one expired and
one live record.  At time 10 `cleanup_expired` removes the expired record
from the in-memory map (the record list changes), yet it does not persist
the store: the filesystem is failing, so a save attempt would surface the
error, but the call returns success because the gating `changed` flag is
only set when some key's record list becomes empty. -/
theorem cleanup_expired_counterexample :
    (ToolPermissionStore.cleanup_expired
        { permissions := [("t:h",
            [{ tool_name := "t", allowed := true, context_hash := "h",
               readable_context := none, timestamp := 0, expiry := some 5 },
             { tool_name := "t", allowed := false, context_hash := "h",
               readable_context := none, timestamp := 1, expiry := none }])],
          version := 1, storage := StorageType.file "d" }
        10 (Except.error "disk full")).1.permissions =
      [("t:h",
        [{ tool_name := "t", allowed := false, context_hash := "h",
           readable_context := none, timestamp := 1, expiry := none }])] ∧
    (ToolPermissionStore.cleanup_expired
        { permissions := [("t:h",
            [{ tool_name := "t", allowed := true, context_hash := "h",
               readable_context := none, timestamp := 0, expiry := some 5 },
             { tool_name := "t", allowed := false, context_hash := "h",
               readable_context := none, timestamp := 1, expiry := none }])],
          version := 1, storage := StorageType.file "d" }
        10 (Except.error "disk full")).2 = Except.ok () := by
  constructor <;> rfl

/-- Claim C1 (amended): `cleanup_expired` removes from every lookup key
exactly the records whose expiry is present and not in the future, and
drops exactly the keys whose record list becomes empty; but it persists
the store if and only if at least one key's record list became empty —
removals that leave every touched key nonempty do not trigger
persistence. -/
theorem cleanup_expired_amended (s : ToolPermissionStore) (now : Int)
    (fsOutcome : SaveOutcome)
    (hnodup : (s.permissions.map Prod.fst).Nodup) :
    (∀ key, (s.cleanup_expired now fsOutcome).1.permissions.lookup key =
        (match s.permissions.lookup key with
        | none => none
        | some records =>
            if (records.filter (validAt now)).isEmpty then none
            else some (records.filter (validAt now)))) ∧
    ((cleanupPass s.permissions now).2 = true ↔
      ∃ e ∈ s.permissions, (e.2.filter (validAt now)).isEmpty = true) ∧
    ((s.cleanup_expired now fsOutcome).2 =
      if (cleanupPass s.permissions now).2 then
        (s.cleanup_expired now fsOutcome).1.saveResult fsOutcome
      else Except.ok ()) := by
  refine ⟨fun key => ?_, ?_, rfl⟩
  · simpa [ToolPermissionStore.cleanup_expired] using
      cleanupPass_lookup s.permissions now key hnodup
  · rw [cleanupPass_changed]
    simp [List.any_eq_true]

/-- Witness for the amended C1 at the counterexample's store, showing the
characterization evaluates as stated there. -/
theorem cleanup_expired_amended_witness :
    (([("t:h",
        [({ tool_name := "t", allowed := true, context_hash := "h",
            readable_context := none, timestamp := 0, expiry := some 5 } :
              ToolPermissionRecord),
         { tool_name := "t", allowed := false, context_hash := "h",
           readable_context := none, timestamp := 1, expiry := none }])] :
        Permissions).map Prod.fst).Nodup ∧
    ((cleanupPass
        [("t:h",
          [{ tool_name := "t", allowed := true, context_hash := "h",
             readable_context := none, timestamp := 0, expiry := some 5 },
           { tool_name := "t", allowed := false, context_hash := "h",
             readable_context := none, timestamp := 1, expiry := none }])]
        10).2 = true ↔
      ∃ e ∈ ([("t:h",
          [({ tool_name := "t", allowed := true, context_hash := "h",
              readable_context := none, timestamp := 0, expiry := some 5 } :
                ToolPermissionRecord),
           { tool_name := "t", allowed := false, context_hash := "h",
             readable_context := none, timestamp := 1, expiry := none }])] :
          Permissions), (e.2.filter (validAt 10)).isEmpty = true) := by
  constructor
  · simp
  · exact (cleanup_expired_amended
      { permissions := [("t:h",
          [{ tool_name := "t", allowed := true, context_hash := "h",
             readable_context := none, timestamp := 0, expiry := some 5 },
           { tool_name := "t", allowed := false, context_hash := "h",
             readable_context := none, timestamp := 1, expiry := none }])],
        version := 1, storage := StorageType.file "d" }
      10 (Except.error "disk full") (by simp)).2.1

theorem lookup_pushAt_self (perms : Permissions) (key : String)
    (r : ToolPermissionRecord) :
    (pushAt perms key r).lookup key = some (((perms.lookup key).getD []) ++ [r]) := by
  induction perms with
  | nil => simp [pushAt, List.lookup]
  | cons kv rest ih =>
      obtain ⟨k, records⟩ := kv
      by_cases h : k = key
      · subst h
        simp [pushAt, List.lookup]
      · have hbeq : (key == k) = false := by simp [Ne.symm h]
        simp [pushAt, h, List.lookup, hbeq, ih]

/-- Claim C8: with a duration, `record_permission` appends under the
request's lookup key a record whose `timestamp` is `now` and whose
`expiry` is `now + duration`; a record is valid exactly while
`now < expiry` (`validAt`); consequently checking the same request at any
time at which the duration has elapsed gives the same answer as the store
before the recording — as if it was never recorded. -/
theorem record_permission_expiry_semantics (ext : ExternalFns)
    (s : ToolPermissionStore) (tool_request : ToolRequest) (tc : ToolCall)
    (allowed : Bool) (d : Nat) (now now' : Int) (fsOutcome : SaveOutcome)
    (h : tool_request.tool_call = Except.ok tc)
    (helapsed : now + (d : Int) ≤ now') :
    (∀ r : ToolPermissionRecord, ∀ exp, r.expiry = some exp →
      (validAt now r = true ↔ now < exp)) ∧
    (∃ s' res,
      s.record_permission ext tool_request allowed (some d) now fsOutcome =
        some (s', res) ∧
      s'.permissions.lookup
          (tc.name ++ ":" ++ ext.blake3Hex (ext.serializeArgs tc.arguments)) =
        some (((s.permissions.lookup
            (tc.name ++ ":" ++ ext.blake3Hex (ext.serializeArgs tc.arguments))).getD [])
          ++ [{ tool_name := tc.name, allowed := allowed,
                context_hash := ext.blake3Hex (ext.serializeArgs tc.arguments),
                readable_context := some (ext.toReadableString tool_request),
                timestamp := now, expiry := some (now + (d : Int)) }]) ∧
      s'.check_permission ext tool_request now' =
        s.check_permission ext tool_request now') := by
  constructor
  · intro r exp hexp
    simp [validAt, hexp]
  · refine ⟨recordedStore ext s tool_request tc allowed (some d) now,
      (recordedStore ext s tool_request tc allowed (some d) now).saveResult fsOutcome,
      ?_, ?_, ?_⟩
    · simp [ToolPermissionStore.record_permission, hash_tool_context, h]
    · show (pushAt s.permissions (tc.name ++ ":" ++ ext.blake3Hex (ext.serializeArgs tc.arguments)) (newRecord ext tool_request tc allowed (some d) now)).lookup (tc.name ++ ":" ++ ext.blake3Hex (ext.serializeArgs tc.arguments)) = _
      exact lookup_pushAt_self s.permissions _ _
    · have hinvalid :
        validAt now' (newRecord ext tool_request tc allowed (some d) now) = false := by
        simp [validAt, newRecord]
        omega
      simp only [ToolPermissionStore.check_permission, hash_tool_context, h,
        recordedStore]
      rw [lookup_pushAt_self]
      cases hcase : s.permissions.lookup
          (tc.name ++ ":" ++ ext.blake3Hex (ext.serializeArgs tc.arguments)) with
      | none =>
          simp [List.filter_cons, hinvalid]
      | some records =>
          simp [List.filter_append, List.filter_cons, hinvalid]

/-- Witness for C8: recording an allow for five seconds at time 0 on the
empty in-memory store, then checking the same request at time 10, returns
the same answer as the empty store (none). -/
theorem record_permission_expiry_semantics_witness :
    ({ id := "1", tool_call := Except.ok { name := "t", arguments := Json.null } } :
        ToolRequest).tool_call =
      Except.ok ({ name := "t", arguments := Json.null } : ToolCall) ∧
    (0 + ((5 : Nat) : Int) ≤ 10) ∧
    (∃ s' res,
      ToolPermissionStore.record_permission
        { serializeArgs := fun _ => "null", blake3Hex := fun s => s,
          toReadableString := fun _ => "req" }
        { permissions := [], version := 1, storage := StorageType.memory }
        { id := "1", tool_call := Except.ok { name := "t", arguments := Json.null } }
        true (some 5) 0 (Except.ok ()) = some (s', res) ∧
      s'.permissions.lookup ("t" ++ ":" ++ "null") =
        some ([] ++
          [{ tool_name := "t", allowed := true, context_hash := "null",
             readable_context := some "req", timestamp := 0,
             expiry := some (0 + ((5 : Nat) : Int)) }]) ∧
      s'.check_permission
          { serializeArgs := fun _ => "null", blake3Hex := fun s => s,
            toReadableString := fun _ => "req" }
          { id := "1", tool_call := Except.ok { name := "t", arguments := Json.null } }
          10 =
        ToolPermissionStore.check_permission
          { serializeArgs := fun _ => "null", blake3Hex := fun s => s,
            toReadableString := fun _ => "req" }
          { permissions := [], version := 1, storage := StorageType.memory }
          { id := "1", tool_call := Except.ok { name := "t", arguments := Json.null } }
          10) := by
  refine ⟨rfl, by norm_num, ?_⟩
  exact (record_permission_expiry_semantics
    { serializeArgs := fun _ => "null", blake3Hex := fun s => s,
      toReadableString := fun _ => "req" }
    { permissions := [], version := 1, storage := StorageType.memory }
    { id := "1", tool_call := Except.ok { name := "t", arguments := Json.null } }
    { name := "t", arguments := Json.null } true 5 0 10 (Except.ok ()) rfl
    (by norm_num)).2

/-- Claim C9: on a file-backed store, a failing write step of
`record_permission` or `cleanup_expired` surfaces the filesystem error to
the caller unchanged, and the store's in-memory state is the same
whatever the write outcome — the failed write neither corrupts nor rolls
back the state the store held when the write began. -/
theorem write_failure_surfaced (ext : ExternalFns) (s : ToolPermissionStore)
    (tool_request : ToolRequest) (tc : ToolCall) (allowed : Bool)
    (expiry_duration : Option Nat) (now : Int) (dir : String)
    (h : tool_request.tool_call = Except.ok tc)
    (hs : s.storage = StorageType.file dir) :
    (∃ s₁, ∀ fsOutcome,
      s.record_permission ext tool_request allowed expiry_duration now fsOutcome =
        some (s₁, fsOutcome)) ∧
    (∃ (s₂ : ToolPermissionStore) (ranSave : Bool), ∀ fsOutcome,
      s.cleanup_expired now fsOutcome =
        (s₂, if ranSave then fsOutcome else Except.ok ())) := by
  constructor
  · refine ⟨recordedStore ext s tool_request tc allowed expiry_duration now,
      fun fsOutcome => ?_⟩
    simp [ToolPermissionStore.record_permission, hash_tool_context, h,
      ToolPermissionStore.saveResult, recordedStore, hs]
  · refine ⟨{ s with permissions := (cleanupPass s.permissions now).1 },
      (cleanupPass s.permissions now).2, fun fsOutcome => ?_⟩
    simp [ToolPermissionStore.cleanup_expired, ToolPermissionStore.saveResult, hs]

/-- Witness for C9 at a concrete file-backed store and request. -/
theorem write_failure_surfaced_witness :
    ({ id := "1", tool_call := Except.ok { name := "t", arguments := Json.null } } :
        ToolRequest).tool_call =
      Except.ok ({ name := "t", arguments := Json.null } : ToolCall) ∧
    ({ permissions := [], version := 1, storage := StorageType.file "d" } :
        ToolPermissionStore).storage = StorageType.file "d" ∧
    ((∃ s₁, ∀ fsOutcome,
      ToolPermissionStore.record_permission
        { serializeArgs := fun _ => "null", blake3Hex := fun s => s,
          toReadableString := fun _ => "req" }
        { permissions := [], version := 1, storage := StorageType.file "d" }
        { id := "1", tool_call := Except.ok { name := "t", arguments := Json.null } }
        true none 0 fsOutcome = some (s₁, fsOutcome)) ∧
    (∃ (s₂ : ToolPermissionStore) (ranSave : Bool), ∀ fsOutcome,
      ToolPermissionStore.cleanup_expired
        { permissions := [], version := 1, storage := StorageType.file "d" }
        0 fsOutcome = (s₂, if ranSave then fsOutcome else Except.ok ()))) :=
  ⟨rfl, rfl,
   write_failure_surfaced
     { serializeArgs := fun _ => "null", blake3Hex := fun s => s,
       toReadableString := fun _ => "req" }
     { permissions := [], version := 1, storage := StorageType.file "d" }
     { id := "1", tool_call := Except.ok { name := "t", arguments := Json.null } }
     { name := "t", arguments := Json.null } true none 0 "d" rfl rfl⟩

theorem permissionsTempPath_ne (dir : String) :
    permissionsTempPath dir ≠ permissionsPath dir := by
  intro hcontra
  have hlen := congrArg String.length hcontra
  have h1 : ("/tool_permissions.tmp" : String).length = 21 := rfl
  have h2 : ("/tool_permissions.json" : String).length = 22 := rfl
  simp only [permissionsTempPath, permissionsPath, String.length_append, h1, h2]
    at hlen
  omega

/-- Claim C2, counterexample: at a concrete path, the filesystem actions
of `Config::save_values` write the complete content directly to the
target path and contain no rename of a temporary file over it — the
claimed temporary-file-plus-atomic-rename pattern does not hold for every
persisting write; the secret-file write of `set_secret`/`delete_secret`
behaves the same way. -/
theorem save_values_plan_counterexample :
    hasAction
        (Config.saveValuesPlan (ConfigStorage.file "home/.config/goose/config.yaml"))
        (FsAction.writeFile "home/.config/goose/config.yaml") = true ∧
    isAtomicReplace
        (Config.saveValuesPlan (ConfigStorage.file "home/.config/goose/config.yaml"))
        "home/.config/goose/config.yaml" = false ∧
    hasAction
        (Config.secretWritePlan (SecretStorage.file "home/.config/goose/secrets.yaml"))
        (FsAction.writeFile "home/.config/goose/secrets.yaml") = true ∧
    isAtomicReplace
        (Config.secretWritePlan (SecretStorage.file "home/.config/goose/secrets.yaml"))
        "home/.config/goose/secrets.yaml" = false := by
  refine ⟨?_, ?_, ?_, ?_⟩ <;> rfl

/-- Claim C2 (amended): only the permission store's save follows the
temporary-file-plus-atomic-rename pattern — it writes the complete
content to the `.tmp` sibling and renames it over the target without ever
writing the target directly; `Config::save_values` and the secret-file
writes of `set_secret`/`delete_secret` instead write the whole serialized
mapping directly to the target path, with no temporary file and no
rename. -/
theorem persistence_plan_shapes (dir path spath : String) :
    isAtomicReplace (ToolPermissionStore.savePlan (StorageType.file dir))
        (permissionsPath dir) = true ∧
    Config.saveValuesPlan (ConfigStorage.file path) =
      [FsAction.createDirAll (parentDir path), FsAction.writeFile path] ∧
    (∀ src dst, hasAction (Config.saveValuesPlan (ConfigStorage.file path))
        (FsAction.rename src dst) = false) ∧
    Config.secretWritePlan (SecretStorage.file spath) =
      [FsAction.writeFile spath] ∧
    (∀ src dst, hasAction (Config.secretWritePlan (SecretStorage.file spath))
        (FsAction.rename src dst) = false) := by
  refine ⟨?_, rfl, ?_, rfl, ?_⟩
  · simp [isAtomicReplace, hasAction, ToolPermissionStore.savePlan,
      permissionsTempPath_ne dir]
  · intro src dst
    simp [Config.saveValuesPlan, hasAction]
  · intro src dst
    simp [Config.secretWritePlan, hasAction]

end Goose
